import Mathlib

/-!
Verification development for the NetAuth entity manager and token registry.

The definitions below are a shallow embedding of the Go sources:
* `EntityManager` embeds `internal/server/entity_manager/entity.go`
  (the `EMDataStore` operations);
* `Tree` embeds the `tree` package (`Manager` operations, `safeCopyEntity`,
  `updateEntityKeys`);
* `Token` embeds the `token` package registry.

External collaborators (the Storage Port and the Secret Sealer) are modelled
at their interface boundary: the store is an association list keyed by the
entity ID, and the sealer is an injective tagging function.  Go's mutable
records become explicit state passing on immutable Lean structures.
-/

/-- The error taxonomy of the system (spec section 7): creation collisions,
lookup misses, the single non-distinguishing authentication failure,
authorization denial, and the configuration-class unknown-name errors. -/
inductive Err where
  | duplicateID
  | duplicateNumber
  | noEntity
  | badAuth
  | entityUnqualified
  | unknownCapability
  | unknownTokenService
deriving DecidableEq

/-- Numeric value of the distinguished root capability.  Modelled from the
generated Protocol code (a dependency, not under src/): proto3 requires the
first enum value to be zero, and `GLOBAL_ROOT` is the zero value of the
`Capability` enumeration. -/
def GLOBAL_ROOT : Nat := 0

/-- Modelled from the generated Protocol code (not under src/): the
`Capability_value` map from capability names to their enum values.  Only
the names used by the sources matter; the nonzero values are placeholders
(the code compares values for equality, never for order). -/
def Capability_value : String → Option Nat
  | "GLOBAL_ROOT" => some 0
  | "CREATE_ENTITY" => some 10
  | "DESTROY_ENTITY" => some 20
  | "MODIFY_ENTITY_META" => some 30
  | "MODIFY_ENTITY_KEYS" => some 40
  | "CHANGE_ENTITY_SECRET" => some 50
  | "DELETE_ENTITY" => some 60
  | "LOCK_ENTITY" => some 70
  | "UNLOCK_ENTITY" => some 80
  | _ => none

/-- A Go map lookup of an absent key yields the zero value: this is the
value of `pb.Capability(pb.Capability_value[c])` for an arbitrary string. -/
def capValueOrZero (c : String) : Nat :=
  (Capability_value c).getD 0

/-- Model of the external Secret Sealer's `Seal` operation (`SecureSecret`):
an injective transformation of the plaintext.  The sealer itself is out of
scope; only seal/verify coherence matters to the claims. -/
def secureSecret (s : String) : String := "sealed$" ++ s

/-- Model of the external Secret Sealer's `Verify` operation
(`VerifySecret`): a plaintext verifies against exactly its own sealed form. -/
def verifySecret (plaintext sealedForm : String) : Bool :=
  secureSecret plaintext == sealedForm

/-- Model of Go's `strings.ToUpper` for the ASCII mode and type strings the
code normalizes: uppercase each character. -/
def strToUpper (s : String) : String := String.mk (s.data.map Char.toUpper)

/-- The metadata message of an entity record: directly held capabilities,
group memberships, key strings, untyped key/value annotations, and the
locked flag (an optional proto field). -/
structure EntityMeta where
  capabilities : List Nat
  groups : List String
  keys : List String
  untypedMeta : List (String × String)
  locked : Option Bool
deriving DecidableEq

/-- The empty metadata message (`&pb.EntityMeta{}`). -/
def emptyMeta : EntityMeta := ⟨[], [], [], [], none⟩

/-- `proto.Merge` on two metadata messages: repeated fields concatenate
(source appended to destination) and a set optional scalar in the source
overwrites the destination. -/
def mergeMeta (dst src : EntityMeta) : EntityMeta where
  capabilities := dst.capabilities ++ src.capabilities
  groups := dst.groups ++ src.groups
  keys := dst.keys ++ src.keys
  untypedMeta := dst.untypedMeta ++ src.untypedMeta
  locked := match src.locked with
    | some b => some b
    | none => dst.locked

namespace EntityManager

/-- An entity record as used by `entity_manager/entity.go`: the code
dereferences the pointer fields unconditionally, so they are modelled as
plain values.  The secret holds sealed credential material. -/
structure Entity where
  id : String
  number : Int
  secret : String
  meta : EntityMeta
deriving DecidableEq

/-- The Storage Port's `LoadEntity`: retrieve the record keyed by ID. -/
def loadEntity (db : List Entity) (ID : String) : Option Entity :=
  db.find? (fun e => e.id == ID)

/-- The Storage Port's `LoadEntityNumber`: retrieve the record keyed by
the numeric identifier. -/
def loadEntityNumber (db : List Entity) (n : Int) : Option Entity :=
  db.find? (fun e => e.number == n)

/-- The Storage Port's `SaveEntity`: persist the record under its ID,
replacing any record previously stored under that ID. -/
def saveEntity (db : List Entity) (e : Entity) : List Entity :=
  e :: db.filter (fun x => !(x.id == e.id))

/-- The `EMDataStore` state: the Storage Port contents and the process-wide
bootstrap flag. -/
structure EMDataStore where
  db : List Entity
  bootstrap_done : Bool
deriving DecidableEq

/-- `checkEntityCapability`'s loop over the entity's direct capability set:
each element is compared against `GLOBAL_ROOT` and against the value the
requested name maps to; falling off the end denies. -/
def checkLoop : List Nat → Nat → Option Err
  | [], _ => some Err.entityUnqualified
  | a :: rest, v =>
    if a = GLOBAL_ROOT then none
    else if a = v then none
    else checkLoop rest v

/-- `checkEntityCapability` (entity.go lines 162-173): succeed when the
direct capability set holds `GLOBAL_ROOT` or the exact named capability,
deny otherwise. -/
def checkEntityCapability (e : Entity) (c : String) : Option Err :=
  checkLoop e.meta.capabilities (capValueOrZero c)

/-- `setEntityCapability` (entity.go lines 189-213): an empty name is a
no-op; an already-held capability is a no-op; otherwise append the
capability and persist. -/
def setEntityCapability (st : EMDataStore) (e : Entity) (c : String) :
    EMDataStore × Option Err :=
  if c = "" then (st, none)
  else
    let cap := capValueOrZero c
    if cap ∈ e.meta.capabilities then (st, none)
    else
      let e' := { e with meta := { e.meta with capabilities := e.meta.capabilities ++ [cap] } }
      ({ st with db := saveEntity st.db e' }, none)

/-- `setEntityCapabilityByID` (entity.go lines 217-224): load the entity
and delegate to `setEntityCapability`. -/
def setEntityCapabilityByID (st : EMDataStore) (ID c : String) :
    EMDataStore × Option Err :=
  match loadEntity st.db ID with
  | none => (st, some Err.noEntity)
  | some e => setEntityCapability st e c

/-- `setEntitySecretByID` (entity.go lines 228-246): load the entity, seal
the plaintext with the Secret Sealer, store the sealed form, persist. -/
def setEntitySecretByID (st : EMDataStore) (ID secret : String) :
    EMDataStore × Option Err :=
  match loadEntity st.db ID with
  | none => (st, some Err.noEntity)
  | some e =>
    let e' := { e with secret := secureSecret secret }
    ({ st with db := saveEntity st.db e' }, none)

/-- Modelled from the spec: `nextUIDNumber` is referenced by entity.go but
defined in a file not under src/; spec sections 4.5 and 9 describe the
allocation as the smallest positive integer not currently assigned. -/
def nextUIDNumber (db : List Entity) : Int :=
  ((((List.range (db.length + 1)).map (fun k => (k + 1 : Int))).find?
      (fun n => !(db.any (fun e => e.number == n)))).getD 1)

/-- `newEntity` (entity.go lines 18-64): reject an existing ID with
`DuplicateID`, then an existing number with `DuplicateNumber`; resolve the
`-1` sentinel to the next available number; persist the new record with
empty metadata, then seal and store the secret as a second step. -/
def newEntity (st : EMDataStore) (ID : String) (uidNumber : Int) (secret : String) :
    EMDataStore × Option Err :=
  if (loadEntity st.db ID).isSome then (st, some Err.duplicateID)
  else if (loadEntityNumber st.db uidNumber).isSome then (st, some Err.duplicateNumber)
  else
    let n := if uidNumber = -1 then nextUIDNumber st.db else uidNumber
    let e : Entity := ⟨ID, n, secret, emptyMeta⟩
    let st1 := { st with db := saveEntity st.db e }
    setEntitySecretByID st1 ID secret

/-- `MakeBootstrap` (entity.go lines 91-125): return immediately when the
flag is already set; promote an existing entity in place by granting
`GLOBAL_ROOT`, or create a new auto-numbered entity and grant it
`GLOBAL_ROOT` (errors from either step are logged and ignored); the flag is
set on every path that does work. -/
def MakeBootstrap (st : EMDataStore) (ID secret : String) : EMDataStore :=
  if st.bootstrap_done then st
  else
    match loadEntity st.db ID with
    | some e =>
      let st' := (setEntityCapability st e "GLOBAL_ROOT").1
      { st' with bootstrap_done := true }
    | none =>
      let st1 := (newEntity st ID (-1) secret).1
      let st2 := (setEntityCapabilityByID st1 ID "GLOBAL_ROOT").1
      { st2 with bootstrap_done := true }

/-- `ValidateSecret` (entity.go lines 277-291): a load failure is surfaced
verbatim (the Storage Port's not-found error); a sealer mismatch yields the
single authentication failure. -/
def ValidateSecret (st : EMDataStore) (ID secret : String) : Option Err :=
  match loadEntity st.db ID with
  | none => some Err.noEntity
  | some e =>
    if verifySecret secret e.secret then none else some Err.badAuth

/-- `updateEntityMeta` (entity.go lines 331-353): null out `Capabilities`
and `Groups` in the incoming patch, `proto.Merge` the rest into the stored
metadata, persist. -/
def updateEntityMeta (st : EMDataStore) (e : Entity) (newMeta : EntityMeta) :
    EMDataStore :=
  let patch := { newMeta with capabilities := [], groups := [] }
  let e' := { e with meta := mergeMeta e.meta patch }
  { st with db := saveEntity st.db e' }

end EntityManager

namespace Tree

/-- An entity record as used by the `tree` package: the proto pointer
fields are modelled as options. -/
structure Entity where
  id : Option String
  number : Option Int
  secret : Option String
  meta : Option EntityMeta
deriving DecidableEq

/-- The empty entity message (`&pb.Entity{}`). -/
def emptyEntity : Entity := ⟨none, none, none, none⟩

/-- The `GetMeta` accessor: the metadata message, or the empty message when
unset. -/
def getMeta (e : Entity) : EntityMeta := e.meta.getD emptyMeta

/-- The `GetMeta().GetKeys()` accessor chain. -/
def getKeys (e : Entity) : List String := (getMeta e).keys

/-- The `GetMeta().GetLocked()` accessor chain. -/
def getLocked (e : Entity) : Bool := (getMeta e).locked.getD false

/-- The Storage Port's `LoadEntity` for the tree package. -/
def loadEntity (db : List Entity) (ID : String) : Option Entity :=
  db.find? (fun e => e.id == some ID)

/-- The Storage Port's `SaveEntity` for the tree package: persist under the
record's ID, replacing any record previously stored under that ID. -/
def saveEntity (db : List Entity) (e : Entity) : List Entity :=
  e :: db.filter (fun x => !(x.id == e.id))

/-- The `Manager` state: the Storage Port contents and the process-wide
bootstrap flag. -/
structure Manager where
  db : List Entity
  bootstrapDone : Bool
deriving DecidableEq

/-- `proto.Merge(dst, src)` on two entity messages: a set pointer field in
the source overwrites the destination; a set metadata message merges into
the destination's (or is copied when the destination has none). -/
def protoMergeEntity (dst src : Entity) : Entity where
  id := match src.id with
    | some v => some v
    | none => dst.id
  number := match src.number with
    | some v => some v
    | none => dst.number
  secret := match src.secret with
    | some v => some v
    | none => dst.secret
  meta := match dst.meta, src.meta with
    | some d, some s => some (mergeMeta d s)
    | some d, none => some d
    | none, some s => some s
    | none, none => none

/-- `safeCopyEntity` (tree package lines 330-341): `proto.Merge` the record
into a fresh empty message, then overwrite the secret field with the fixed
redaction sentinel.  Under the value semantics of the embedding the deep
copy is the construction of a new structure value, so the copy can share no
mutable state with the stored record. -/
def safeCopyEntity (e : Entity) : Entity :=
  let dup := protoMergeEntity emptyEntity e
  { dup with secret := some "<REDACTED>" }

/-- Modelled from the spec: the SET-CAPABILITY hook chain is registered
elsewhere in the repository (not under src/); per spec sections 4.1 and 4.3
it loads the entity, adds the capability if absent (idempotently), and
persists. -/
def setCapabilityPipeline (m : Manager) (ID : String) (v : Nat) :
    Manager × Option Err :=
  match loadEntity m.db ID with
  | none => (m, some Err.noEntity)
  | some e =>
    let mta := getMeta e
    if v ∈ mta.capabilities then (m, none)
    else
      let e' := { e with meta := some { mta with capabilities := mta.capabilities ++ [v] } }
      ({ m with db := saveEntity m.db e' }, none)

/-- Modelled from the spec: the DROP-CAPABILITY hook chain is registered
elsewhere in the repository (not under src/); per spec sections 4.1 and 4.3
it loads the entity, removes the capability (dropping an absent capability
is a no-op), and persists. -/
def dropCapabilityPipeline (m : Manager) (ID : String) (v : Nat) :
    Manager × Option Err :=
  match loadEntity m.db ID with
  | none => (m, some Err.noEntity)
  | some e =>
    let mta := getMeta e
    let e' := { e with meta := some { mta with capabilities := mta.capabilities.filter (fun a => a ≠ v) } }
    ({ m with db := saveEntity m.db e' }, none)

/-- `Manager.SetEntityCapabilityByID` (tree package lines 100-122): an
unmapped capability name fails with `UnknownCapability` before any hook
runs; otherwise the SET-CAPABILITY chain runs. -/
def SetEntityCapabilityByID (m : Manager) (ID c : String) :
    Manager × Option Err :=
  match Capability_value c with
  | none => (m, some Err.unknownCapability)
  | some v => setCapabilityPipeline m ID v

/-- `Manager.RemoveEntityCapabilityByID` (tree package lines 126-148): an
unmapped capability name fails with `UnknownCapability` before any hook
runs; otherwise the DROP-CAPABILITY chain runs. -/
def RemoveEntityCapabilityByID (m : Manager) (ID c : String) :
    Manager × Option Err :=
  match Capability_value c with
  | none => (m, some Err.unknownCapability)
  | some v => dropCapabilityPipeline m ID v

/-- Modelled from the spec: the VALIDATE-IDENTITY hook chain behind
`Manager.ValidateSecret` (tree package lines 170-184) is registered
elsewhere in the repository (not under src/); per spec sections 4.4 and 4.5
it loads the entity (a lookup miss surfaces the storage not-found error),
treats a locked entity as unauthenticatable, and verifies the plaintext
against the stored sealed form, failing with the single non-distinguishing
authentication error on a locked entity or any mismatch. -/
def ValidateSecret (m : Manager) (ID secret : String) : Option Err :=
  match loadEntity m.db ID with
  | none => some Err.noEntity
  | some e =>
    if getLocked e then some Err.badAuth
    else
      match e.secret with
      | none => some Err.badAuth
      | some sealedForm =>
        if verifySecret secret sealedForm then none else some Err.badAuth

/-- Modelled from the spec: the LOCK hook chain behind `Manager.LockEntity`
(tree package lines 298-311) is registered elsewhere in the repository (not
under src/); per spec section 4.5 it sets the locked flag via its dedicated
stage and persists. -/
def LockEntity (m : Manager) (ID : String) : Manager × Option Err :=
  match loadEntity m.db ID with
  | none => (m, some Err.noEntity)
  | some e =>
    let e' := { e with meta := some { getMeta e with locked := some true } }
    ({ m with db := saveEntity m.db e' }, none)

/-- Modelled from the spec: `patchStringSlice` is defined elsewhere in the
repository (not under src/); per spec section 4.5 the ADD form inserts the
string preserving insertion order with no duplicate entries, and the DEL
form removes the exact string match. -/
def patchStringSlice (l : List String) (s : String) (add : Bool) (_exact : Bool) :
    List String :=
  if add then (if s ∈ l then l else l ++ [s])
  else l.filter (fun x => x ≠ s)

/-- The nil-metadata guard at the top of `updateEntityKeys` (tree package
lines 236-238): an unset metadata message is replaced by the empty one. -/
def ensureMeta (e : Entity) : Entity :=
  match e.meta with
  | none => { e with meta := some emptyMeta }
  | some _ => e

/-- Replace the key list inside the (present) metadata message. -/
def setKeys (e : Entity) (ks : List String) : Entity :=
  { e with meta := some { getMeta e with keys := ks } }

/-- `updateEntityKeys` (tree package lines 231-254): uppercase the mode and
type, guard a nil metadata message, then switch on the mode — LIST returns
the current keys without persisting; ADD and DEL patch the key list; any
other mode falls through the switch unchanged.  Every non-LIST path saves
the entity and returns `(nil, nil)`. -/
def updateEntityKeys (m : Manager) (e : Entity) (mode keyType key : String) :
    Manager × Option (List String) × Option Err :=
  let mode := strToUpper mode
  let keyType := strToUpper keyType
  let e := ensureMeta e
  match mode with
  | "LIST" => (m, some (getKeys e), none)
  | _ =>
    let e' :=
      match mode with
      | "ADD" => setKeys e (patchStringSlice (getKeys e) (keyType ++ ":" ++ key) true true)
      | "DEL" => setKeys e (patchStringSlice (getKeys e) key false false)
      | _ => e
    ({ m with db := saveEntity m.db e' }, none, none)

/-- `Manager.UpdateEntityKeys` (tree package lines 257-264): load the
entity by ID (surfacing the storage error on a miss) and delegate to
`updateEntityKeys`. -/
def UpdateEntityKeys (m : Manager) (entityID mode keytype key : String) :
    Manager × Option (List String) × Option Err :=
  match loadEntity m.db entityID with
  | none => (m, none, some Err.noEntity)
  | some e => updateEntityKeys m e mode keytype key

end Tree

namespace Token

/-- `Register` (token package lines 399-405): a name already present in the
registry is silently ignored (first registration wins); otherwise the
factory is stored under the name.  The Go map is modelled as an association
list. -/
def Register {α : Type} (svcs : List (String × α)) (name : String) (impl : α) :
    List (String × α) :=
  match svcs.find? (fun p => p.1 == name) with
  | some _ => svcs
  | none => svcs ++ [(name, impl)]

/-- `New` (token package lines 389-395): instantiate the named backend by
returning its registered factory, or fail with the unknown-backend error.
(The Go code applies the factory to a logger; the model returns the factory
that would be applied.) -/
def New {α : Type} (svcs : List (String × α)) (backend : String) :
    Except Err α :=
  match svcs.find? (fun p => p.1 == backend) with
  | some p => Except.ok p.2
  | none => Except.error Err.unknownTokenService

end Token

/-! Helper lemmas about the Storage Port model. -/

theorem em_loadEntity_id {db : List EntityManager.Entity} {ID : String}
    {e : EntityManager.Entity} (h : EntityManager.loadEntity db ID = some e) :
    e.id = ID := by
  have := List.find?_some h
  simpa using this

theorem em_loadEntity_save (db : List EntityManager.Entity)
    (e : EntityManager.Entity) (ID : String) (h : e.id = ID) :
    EntityManager.loadEntity (EntityManager.saveEntity db e) ID = some e := by
  unfold EntityManager.loadEntity EntityManager.saveEntity
  rw [List.find?_cons_of_pos]
  simp [h]

theorem tree_loadEntity_id {db : List Tree.Entity} {ID : String}
    {e : Tree.Entity} (h : Tree.loadEntity db ID = some e) :
    e.id = some ID := by
  have := List.find?_some h
  simpa using this

theorem tree_loadEntity_save (db : List Tree.Entity)
    (e : Tree.Entity) (ID : String) (h : e.id = some ID) :
    Tree.loadEntity (Tree.saveEntity db e) ID = some e := by
  unfold Tree.loadEntity Tree.saveEntity
  rw [List.find?_cons_of_pos]
  simp [h]

/-- The capability-check loop succeeds exactly when the set holds the root
capability or the looked-up value. -/
theorem checkLoop_eq_none_iff (l : List Nat) (v : Nat) :
    EntityManager.checkLoop l v = none ↔ GLOBAL_ROOT ∈ l ∨ v ∈ l := by
  induction l with
  | nil => simp [EntityManager.checkLoop]
  | cons a rest ih =>
    by_cases h0 : a = GLOBAL_ROOT
    · simp [EntityManager.checkLoop, h0]
    · by_cases hv : a = v
      · simp [EntityManager.checkLoop, h0, hv]
      · have h0' : ¬ GLOBAL_ROOT = a := fun h => h0 h.symm
        have hv' : ¬ v = a := fun h => hv h.symm
        simp [EntityManager.checkLoop, h0, hv, ih, List.mem_cons, h0', hv']

/-! The claims. -/

/-- C1: the safe-copy operation used by GetEntity/Fetch returns a record
equal to the stored one in every field except the secret, whose value in
the copy is always the fixed redaction sentinel, never the sealed or
plaintext secret.  The copy is a freshly constructed structure value, so
under the embedding's value semantics it shares no mutable state with the
stored record. -/
theorem c1_safe_copy_redacts (e : Tree.Entity) :
    Tree.safeCopyEntity e =
      { id := e.id, number := e.number, secret := some "<REDACTED>",
        meta := e.meta } := by
  rcases e with ⟨i, n, s, m⟩
  cases i <;> cases n <;> cases s <;> cases m <;> rfl

/-- C2: an entity holding GLOBAL_ROOT passes the capability check for every
capability name, including names never granted; an entity not holding
GLOBAL_ROOT passes exactly when its direct capability set contains the
capability the name denotes, and is denied otherwise. -/
theorem c2_check_capability (e : EntityManager.Entity) (c : String) :
    (GLOBAL_ROOT ∈ e.meta.capabilities →
      EntityManager.checkEntityCapability e c = none) ∧
    (GLOBAL_ROOT ∉ e.meta.capabilities →
      (EntityManager.checkEntityCapability e c = none ↔
        ∃ v, Capability_value c = some v ∧ v ∈ e.meta.capabilities)) := by
  constructor
  · intro h
    unfold EntityManager.checkEntityCapability
    exact (checkLoop_eq_none_iff _ _).mpr (Or.inl h)
  · intro h
    unfold EntityManager.checkEntityCapability
    rw [checkLoop_eq_none_iff]
    cases hc : Capability_value c with
    | none =>
      have h0 : (0 : Nat) ∉ e.meta.capabilities := h
      simp only [capValueOrZero, hc, Option.getD_none]
      simp [h, h0]
    | some v =>
      simp only [capValueOrZero, hc, Option.getD_some]
      simp [h]

theorem c2_witness :
    EntityManager.checkEntityCapability
      ⟨"root", 1, "s", ⟨[GLOBAL_ROOT], [], [], [], none⟩⟩ "DESTROY_ENTITY" = none ∧
    (EntityManager.checkEntityCapability
        ⟨"plain", 2, "s", ⟨[10], [], [], [], none⟩⟩ "CREATE_ENTITY" = none ↔
      ∃ v, Capability_value "CREATE_ENTITY" = some v ∧
        v ∈ (EntityManager.Entity.mk "plain" 2 "s" ⟨[10], [], [], [], none⟩).meta.capabilities) :=
  ⟨(c2_check_capability ⟨"root", 1, "s", ⟨[GLOBAL_ROOT], [], [], [], none⟩⟩
      "DESTROY_ENTITY").1 (by decide),
   (c2_check_capability ⟨"plain", 2, "s", ⟨[10], [], [], [], none⟩⟩
      "CREATE_ENTITY").2 (by decide)⟩

/-- C3 counterexample: for an ID with no stored entity, `ValidateSecret`
fails with the storage not-found error, which is distinguishable from the
single authentication-failure class, refuting the claim that every failure
of `ValidateSecret` is `AuthenticationFailed`. -/
theorem c3_counterexample :
    EntityManager.ValidateSecret ⟨[], false⟩ "x" "s" = some Err.noEntity ∧
    some Err.noEntity ≠ some Err.badAuth := by
  exact ⟨rfl, by decide⟩

/-- C3 amended: for every ID that names an existing entity, whenever
`ValidateSecret` fails it fails with the single AuthenticationFailed class,
with no distinguishable detail between a wrong secret and a locked entity;
in particular, after `LockEntity`, `ValidateSecret` with any plaintext
(including the correct one) fails with AuthenticationFailed.  A missing ID
instead surfaces the storage not-found error. -/
theorem c3_amended_single_auth_error (m : Tree.Manager) (ID s p : String)
    (e : Tree.Entity) (hload : Tree.loadEntity m.db ID = some e) :
    (Tree.ValidateSecret m ID s = none ∨
      Tree.ValidateSecret m ID s = some Err.badAuth) ∧
    Tree.ValidateSecret (Tree.LockEntity m ID).1 ID p = some Err.badAuth := by
  constructor
  · unfold Tree.ValidateSecret
    rw [hload]
    by_cases hl : Tree.getLocked e
    · simp [hl]
    · simp only [hl, if_false, Bool.false_eq_true]
      cases e.secret with
      | none => simp
      | some sf =>
        by_cases hv : verifySecret s sf
        · simp [hv]
        · simp [hv]
  · have hid : e.id = some ID := tree_loadEntity_id hload
    have h1 : (Tree.LockEntity m ID).1 =
        { m with db := Tree.saveEntity m.db { e with meta := some { Tree.getMeta e with locked := some true } } } := by
      unfold Tree.LockEntity
      rw [hload]
    rw [h1]
    unfold Tree.ValidateSecret
    have h2 := tree_loadEntity_save m.db
      { e with meta := some { Tree.getMeta e with locked := some true } } ID hid
    rw [h2]
    simp [Tree.getLocked, Tree.getMeta]

theorem c3_witness :
    (Tree.ValidateSecret
        ⟨[⟨some "a", some 1, some (secureSecret "pw"), some emptyMeta⟩], false⟩
        "a" "zz" = none ∨
      Tree.ValidateSecret
        ⟨[⟨some "a", some 1, some (secureSecret "pw"), some emptyMeta⟩], false⟩
        "a" "zz" = some Err.badAuth) ∧
    Tree.ValidateSecret
      (Tree.LockEntity
        ⟨[⟨some "a", some 1, some (secureSecret "pw"), some emptyMeta⟩], false⟩
        "a").1 "a" "pw" = some Err.badAuth :=
  c3_amended_single_auth_error
    ⟨[⟨some "a", some 1, some (secureSecret "pw"), some emptyMeta⟩], false⟩
    "a" "zz" "pw"
    ⟨some "a", some 1, some (secureSecret "pw"), some emptyMeta⟩ (by decide)

/-- C4: the metadata merge leaves the stored entity's Capabilities and
Groups exactly as they were, even when the incoming patch populates them;
the remaining metadata fields are merged (repeated fields appended, a set
locked flag overwriting). -/
theorem c4_meta_merge_frame (st : EntityManager.EMDataStore)
    (e : EntityManager.Entity) (p : EntityMeta) :
    EntityManager.loadEntity (EntityManager.updateEntityMeta st e p).db e.id =
      some { e with meta :=
        { capabilities := e.meta.capabilities
          groups := e.meta.groups
          keys := e.meta.keys ++ p.keys
          untypedMeta := e.meta.untypedMeta ++ p.untypedMeta
          locked := match p.locked with
            | some b => some b
            | none => e.meta.locked } } := by
  unfold EntityManager.updateEntityMeta
  rw [em_loadEntity_save _ _ _ rfl]
  simp [mergeMeta]

/-- C5: a single `MakeBootstrap` call leaves the process-wide bootstrap
flag set on every outcome, and any subsequent call (with any arguments)
returns the state unchanged, so only the first call's creation or
promotion takes effect. -/
theorem c5_bootstrap_one_shot (st : EntityManager.EMDataStore)
    (ID1 s1 ID2 s2 : String) :
    (EntityManager.MakeBootstrap st ID1 s1).bootstrap_done = true ∧
    EntityManager.MakeBootstrap (EntityManager.MakeBootstrap st ID1 s1) ID2 s2 =
      EntityManager.MakeBootstrap st ID1 s1 := by
  have hflag : ∀ (t : EntityManager.EMDataStore) (I s : String),
      (EntityManager.MakeBootstrap t I s).bootstrap_done = true := by
    intro t I s
    unfold EntityManager.MakeBootstrap
    by_cases hb : t.bootstrap_done
    · simp [hb]
    · simp only [hb, if_false, Bool.false_eq_true]
      split <;> rfl
  have hnoop : ∀ (t : EntityManager.EMDataStore) (I s : String),
      t.bootstrap_done = true → EntityManager.MakeBootstrap t I s = t := by
    intro t I s ht
    unfold EntityManager.MakeBootstrap
    simp [ht]
  exact ⟨hflag st ID1 s1, hnoop _ ID2 s2 (hflag st ID1 s1)⟩

/-- C6 counterexample: with entity `a` stored under number 1, creating with
the same ID `a` and the already-assigned specific number 1 fails with
`DuplicateID`, not `DuplicateNumber`: the number collision does not win
"regardless of the requested ID", because the ID check runs first. -/
theorem c6_counterexample :
    EntityManager.newEntity ⟨[⟨"a", 1, "s", emptyMeta⟩], false⟩ "a" 1 "t" =
      (⟨[⟨"a", 1, "s", emptyMeta⟩], false⟩, some Err.duplicateID) ∧
    (EntityManager.loadEntityNumber [⟨"a", 1, "s", emptyMeta⟩] 1).isSome = true ∧
    some Err.duplicateID ≠ some Err.duplicateNumber := by
  refine ⟨by decide, by decide, by decide⟩

/-- C6 amended: creation with an ID already in use fails with `DuplicateID`
(this check runs first and takes precedence over any number collision);
when the ID is fresh and the requested number is already assigned, creation
fails with `DuplicateNumber`; in either failure case the state is returned
unchanged, so no new entity is stored. -/
theorem c6_amended_duplicate_rejection (st : EntityManager.EMDataStore)
    (ID : String) (n : Int) (s : String) :
    ((EntityManager.loadEntity st.db ID).isSome = true →
      EntityManager.newEntity st ID n s = (st, some Err.duplicateID)) ∧
    ((EntityManager.loadEntity st.db ID).isSome = false →
      (EntityManager.loadEntityNumber st.db n).isSome = true →
      EntityManager.newEntity st ID n s = (st, some Err.duplicateNumber)) := by
  constructor
  · intro h
    unfold EntityManager.newEntity
    simp [h]
  · intro h1 h2
    unfold EntityManager.newEntity
    simp [h1, h2]

theorem c6_witness :
    EntityManager.newEntity ⟨[⟨"a", 1, "s", emptyMeta⟩], false⟩ "a" 5 "t" =
      (⟨[⟨"a", 1, "s", emptyMeta⟩], false⟩, some Err.duplicateID) ∧
    EntityManager.newEntity ⟨[⟨"a", 1, "s", emptyMeta⟩], false⟩ "b" 1 "t" =
      (⟨[⟨"a", 1, "s", emptyMeta⟩], false⟩, some Err.duplicateNumber) :=
  ⟨(c6_amended_duplicate_rejection ⟨[⟨"a", 1, "s", emptyMeta⟩], false⟩ "a" 5 "t").1
      (by decide),
   (c6_amended_duplicate_rejection ⟨[⟨"a", 1, "s", emptyMeta⟩], false⟩ "b" 1 "t").2
      (by decide) (by decide)⟩

/-- The two outcomes of one capability-set step: a no-op when the
capability is already held directly, an append-and-persist otherwise. -/
theorem em_setcap_cases (st : EntityManager.EMDataStore) (ID X : String)
    (v : Nat) (e : EntityManager.Entity)
    (hload : EntityManager.loadEntity st.db ID = some e)
    (hne : ¬ X = "") (hcap : capValueOrZero X = v) :
    (v ∈ e.meta.capabilities →
      EntityManager.setEntityCapabilityByID st ID X = (st, none)) ∧
    (v ∉ e.meta.capabilities →
      EntityManager.setEntityCapabilityByID st ID X =
        ({ st with db := EntityManager.saveEntity st.db { e with meta := { e.meta with capabilities := e.meta.capabilities ++ [v] } } }, none)) := by
  constructor
  · intro hmem
    unfold EntityManager.setEntityCapabilityByID
    rw [hload]
    unfold EntityManager.setEntityCapability
    simp [hne, hcap, hmem]
  · intro hmem
    unfold EntityManager.setEntityCapabilityByID
    rw [hload]
    unfold EntityManager.setEntityCapability
    simp [hne, hcap, hmem]

/-- C7: setting a capability is idempotent: applying set-capability X
twice (covering both the not-yet-held and already-held starting points of
an entity whose set holds X at most once) leaves the stored capability set
containing exactly one occurrence of X. -/
theorem c7_set_capability_idempotent (st : EntityManager.EMDataStore)
    (ID X : String) (v : Nat) (e : EntityManager.Entity)
    (hload : EntityManager.loadEntity st.db ID = some e)
    (hv : Capability_value X = some v)
    (hcount : e.meta.capabilities.count v ≤ 1) :
    ((EntityManager.loadEntity
        ((EntityManager.setEntityCapabilityByID
            ((EntityManager.setEntityCapabilityByID st ID X).1) ID X).1).db ID).map
      (fun e' => e'.meta.capabilities.count v)) = some 1 := by
  have hne : ¬ X = "" := by
    intro h
    rw [h] at hv
    simp [Capability_value] at hv
  have hcap : capValueOrZero X = v := by simp [capValueOrZero, hv]
  have hid : e.id = ID := em_loadEntity_id hload
  by_cases hmem : v ∈ e.meta.capabilities
  · have hstep := (em_setcap_cases st ID X v e hload hne hcap).1 hmem
    rw [hstep]
    rw [hstep]
    rw [hload]
    have hpos : 0 < e.meta.capabilities.count v := List.count_pos_iff.mpr hmem
    have h1 : e.meta.capabilities.count v = 1 := by omega
    simp [h1]
  · have hstep1 := (em_setcap_cases st ID X v e hload hne hcap).2 hmem
    rw [hstep1]
    have hload2 : EntityManager.loadEntity
        (EntityManager.saveEntity st.db { e with meta := { e.meta with capabilities := e.meta.capabilities ++ [v] } }) ID =
        some { e with meta := { e.meta with capabilities := e.meta.capabilities ++ [v] } } :=
      em_loadEntity_save _ _ _ hid
    have hstep2 := (em_setcap_cases
        { st with db := EntityManager.saveEntity st.db { e with meta := { e.meta with capabilities := e.meta.capabilities ++ [v] } } }
        ID X v _ hload2 hne hcap).1 (by simp)
    rw [hstep2]
    rw [hload2]
    have hzero : e.meta.capabilities.count v = 0 :=
      List.count_eq_zero_of_not_mem hmem
    simp [List.count_append, hzero]

theorem c7_witness :
    ((EntityManager.loadEntity
        ((EntityManager.setEntityCapabilityByID
            ((EntityManager.setEntityCapabilityByID
              ⟨[⟨"a", 1, "s", emptyMeta⟩], false⟩ "a" "CREATE_ENTITY").1)
            "a" "CREATE_ENTITY").1).db "a").map
      (fun e' => e'.meta.capabilities.count 10)) = some 1 :=
  c7_set_capability_idempotent ⟨[⟨"a", 1, "s", emptyMeta⟩], false⟩
    "a" "CREATE_ENTITY" 10 ⟨"a", 1, "s", emptyMeta⟩
    (by decide) (by decide) (by decide)

/-- C8: a capability name outside the defined enumeration makes both the
set-capability and the drop-capability operation fail with the
`UnknownCapability` configuration-class error before any hook runs: the
state — and with it the target entity's capability set — is returned
unchanged. -/
theorem c8_unknown_capability_rejected (m : Tree.Manager) (ID c : String)
    (h : Capability_value c = none) :
    Tree.SetEntityCapabilityByID m ID c = (m, some Err.unknownCapability) ∧
    Tree.RemoveEntityCapabilityByID m ID c = (m, some Err.unknownCapability) := by
  unfold Tree.SetEntityCapabilityByID Tree.RemoveEntityCapabilityByID
  rw [h]
  exact ⟨rfl, rfl⟩

theorem c8_witness :
    Tree.SetEntityCapabilityByID ⟨[], false⟩ "a" "NOT_A_CAPABILITY" =
      ((⟨[], false⟩ : Tree.Manager), some Err.unknownCapability) ∧
    Tree.RemoveEntityCapabilityByID ⟨[], false⟩ "a" "NOT_A_CAPABILITY" =
      ((⟨[], false⟩ : Tree.Manager), some Err.unknownCapability) :=
  c8_unknown_capability_rejected ⟨[], false⟩ "a" "NOT_A_CAPABILITY" rfl

/-- C9: token backend registration is first-wins — after registering f and
then g under the same previously-unused name, New instantiates using f —
and New on a never-registered name fails with the unknown-backend error. -/
theorem c9_register_first_wins (α : Type) (svcs : List (String × α))
    (n : String) (f g : α)
    (h : svcs.find? (fun p => p.1 == n) = none) :
    Token.New (Token.Register (Token.Register svcs n f) n g) n = Except.ok f ∧
    Token.New svcs n = Except.error Err.unknownTokenService := by
  have h1 : Token.Register svcs n f = svcs ++ [(n, f)] := by
    unfold Token.Register
    rw [h]
  have h2 : (svcs ++ [(n, f)]).find? (fun p => p.1 == n) = some (n, f) := by
    rw [List.find?_append, h]
    simp
  have h3 : Token.Register (svcs ++ [(n, f)]) n g = svcs ++ [(n, f)] := by
    unfold Token.Register
    rw [h2]
  constructor
  · rw [h1, h3]
    unfold Token.New
    rw [h2]
  · unfold Token.New
    rw [h]

theorem c9_witness :
    Token.New (Token.Register (Token.Register ([] : List (String × Nat)) "x" 1) "x" 2) "x" =
      Except.ok 1 ∧
    Token.New ([] : List (String × Nat)) "x" = Except.error Err.unknownTokenService :=
  c9_register_first_wins Nat [] "x" 1 2 rfl

/-- C10: for an existing entity and a mode whose uppercasing is none of
LIST, ADD, or DEL, `UpdateEntityKeys` reports no error: it re-saves the
loaded entity (after the nil-metadata guard) with its key list unchanged
and returns `(nil, nil)`, indistinguishable from a successful mutation. -/
theorem c10_unknown_mode_silently_succeeds (m : Tree.Manager)
    (ID mode kt k : String) (e : Tree.Entity)
    (hload : Tree.loadEntity m.db ID = some e)
    (h1 : strToUpper mode ≠ "LIST") (h2 : strToUpper mode ≠ "ADD")
    (h3 : strToUpper mode ≠ "DEL") :
    Tree.UpdateEntityKeys m ID mode kt k =
      ({ m with db := Tree.saveEntity m.db (Tree.ensureMeta e) }, none, none) ∧
    Tree.getKeys (Tree.ensureMeta e) = Tree.getKeys e := by
  constructor
  · have h0 : Tree.UpdateEntityKeys m ID mode kt k =
        Tree.updateEntityKeys m e mode kt k := by
      unfold Tree.UpdateEntityKeys
      rw [hload]
    rw [h0]
    simp only [Tree.updateEntityKeys]
  · unfold Tree.ensureMeta
    cases hm : e.meta with
    | none => simp [Tree.getKeys, Tree.getMeta, hm]
    | some mm => simp [Tree.getKeys, Tree.getMeta, hm]

theorem c10_witness :
    Tree.UpdateEntityKeys ⟨[⟨some "a", some 1, some "s", some emptyMeta⟩], false⟩
        "a" "FROB" "t" "k" =
      (⟨Tree.saveEntity [⟨some "a", some 1, some "s", some emptyMeta⟩] (Tree.ensureMeta ⟨some "a", some 1, some "s", some emptyMeta⟩), false⟩, none, none) ∧
    Tree.getKeys (Tree.ensureMeta ⟨some "a", some 1, some "s", some emptyMeta⟩) =
      Tree.getKeys ⟨some "a", some 1, some "s", some emptyMeta⟩ :=
  c10_unknown_mode_silently_succeeds
    ⟨[⟨some "a", some 1, some "s", some emptyMeta⟩], false⟩
    "a" "FROB" "t" "k" ⟨some "a", some 1, some "s", some emptyMeta⟩
    (by decide) (by decide) (by decide) (by decide)

